import Mathlib

/-!
Verification of the ktop sampling-and-rendering engine.

A shallow embedding of `src/ktop.py` (terminal system resource monitor).
Python floats are modelled as exact rationals (`ℚ`), Python ints as `ℤ`/`ℕ`,
`deque(maxlen=N)` as a list with FIFO eviction, and the config-file write as a
state field recording the last persisted theme name.  Fallible or external
inputs (psutil readings, clock, key bytes) are passed in explicitly.
-/

namespace Ktop

/-- The glyph ramp `SPARK = " ▁▂▃▄▅▆▇█"` (9 intensity levels, blank first). -/
def SPARK : List Char := [' ', '▁', '▂', '▃', '▄', '▅', '▆', '▇', '█']

/-- `HISTORY_LEN = 300`, the capacity of every rolling history. -/
def HISTORY_LEN : ℕ := 300

/-- Python `int(q)`: truncation toward zero. -/
def pytrunc (q : ℚ) : ℤ := if q < 0 then ⌈q⌉ else ⌊q⌋

/-- One `deque(maxlen=N).append(v)` step: push `v`, evicting from the left
down to capacity `N`. -/
def rhAppend (N : ℕ) (h : List ℚ) (v : ℚ) : List ℚ :=
  let h2 := h ++ [v]
  h2.drop (h2.length - N)

/-- The rolling history obtained by appending the whole sequence `vs`
into an empty capacity-`N` buffer. -/
def rhFrom (N : ℕ) (vs : List ℚ) : List ℚ :=
  vs.foldl (rhAppend N) []

/-- An RGB color triple, as produced by `_color_to_rgb`. -/
structure RGB where
  r : ℤ
  g : ℤ
  b : ℤ
deriving DecidableEq, Repr

/-- `_lerp_rgb(c1, c2, t)`: component-wise linear interpolation, each
component truncated to an integer by Python `int(...)`. -/
def lerp_rgb (c1 c2 : RGB) (t : ℚ) : RGB :=
  ⟨pytrunc ((c1.r : ℚ) + ((c2.r : ℚ) - (c1.r : ℚ)) * t),
   pytrunc ((c1.g : ℚ) + ((c2.g : ℚ) - (c1.g : ℚ)) * t),
   pytrunc ((c1.b : ℚ) + ((c2.b : ℚ) - (c1.b : ℚ)) * t)⟩

/-- `_bar`'s `filled = int(pct / 100 * width)`. -/
def barFilled (pct : ℚ) (width : ℕ) : ℤ :=
  pytrunc (pct / 100 * (width : ℚ))

/-- `_bar`'s `empty = width - filled` (Python int arithmetic). -/
def barEmpty (pct : ℚ) (width : ℕ) : ℤ :=
  (width : ℤ) - barFilled pct width

/-- The interpolation parameter `t = i / max(width - 1, 1)` used by `_bar`
for the filled cell at 0-indexed position `i`. -/
def barT (width : ℕ) (i : ℕ) : ℚ :=
  (i : ℚ) / ((max ((width : ℤ) - 1) 1 : ℤ) : ℚ)

/-- The colors of the filled cells of `_bar(pct, width)` with gradient
endpoints `lo`, `hi`: cell `i` is `_lerp_rgb(lo, hi, i / max(width-1, 1))`. -/
def barCells (pct : ℚ) (width : ℕ) (lo hi : RGB) : List RGB :=
  (List.range (barFilled pct width).toNat).map (fun i => lerp_rgb lo hi (barT width i))

/-- `_sparkline`'s per-value clamp `max(0.0, min(100.0, v))`. -/
def sparkClamp (v : ℚ) : ℚ := max 0 (min 100 v)

/-- `_sparkline`'s glyph index `int(v / 100 * (len(SPARK) - 1))` after clamping. -/
def sparkIdx (v : ℚ) : ℤ :=
  pytrunc (sparkClamp v / 100 * (((SPARK.length : ℤ) - 1 : ℤ) : ℚ))

/-- The glyph chosen for one value: `SPARK[idx]`. -/
def sparkGlyph (v : ℚ) : Char :=
  SPARK.getD (sparkIdx v).toNat ' '

/-- `_sparkline(values, width)`: empty input gives the empty output; a truthy
width smaller than the input length keeps only the trailing `width` values;
each kept value is mapped to its ramp glyph. -/
def sparkline (values : List ℚ) (width : Option ℕ) : List Char :=
  if values = [] then []
  else
    let vals :=
      match width with
      | some w => if w ≠ 0 ∧ w < values.length then values.drop (values.length - w) else values
      | none => values
    vals.map sparkGlyph

/-- The ceiling update `max(self.net_max_speed, up, down, 1.0)` in `_sample_net`. -/
def netCeilStep (cur up down : ℚ) : ℚ :=
  max (max (max cur up) down) 1

/-- The auto-scale ceiling after observing a sequence of (up, down) rate pairs,
seeded at `1.0` as in `KTop.__init__`. -/
def netCeilAfter (obs : List (ℚ × ℚ)) : ℚ :=
  obs.foldl (fun c o => netCeilStep c o.1 o.2) 1

/-- Logical key events produced by `_read_key`. -/
inductive Key where
  | ch (c : Char)
  | enter
  | esc
  | up
  | down
  | left
  | right
deriving DecidableEq, Repr

/-- `_read_key`'s decoding of one raw read (a byte list): empty read gives no
key; a leading `0x1B` is an escape sequence (`[` + `A`/`B`/`C`/`D` is an arrow,
a lone escape is ESC, anything else is discarded); otherwise the first byte is
a character, with `\r`/`\n` mapped to ENTER. -/
def readKey (data : List ℕ) : Option Key :=
  match data with
  | [] => none
  | b :: rest =>
    if b = 27 then
      match rest with
      | c1 :: c2 :: _ =>
        if c1 = 91 then
          if c2 = 65 then some Key.up
          else if c2 = 66 then some Key.down
          else if c2 = 67 then some Key.right
          else if c2 = 68 then some Key.left
          else none
        else none
      | [] => some Key.esc
      | [_] => none
    else
      if b = 13 ∨ b = 10 then some Key.enter
      else some (Key.ch (Char.ofNat b))

/-- One theme record: nine semantic color roles (`net` defaults to `cpu`). -/
structure ThemeRec where
  gpu : String
  cpu : String
  mem : String
  proc_mem : String
  proc_cpu : String
  bar_low : String
  bar_mid : String
  bar_high : String
  net : String
deriving DecidableEq, Repr

/-- The `_t` registration helper: builds one named theme, with `net or cpu`. -/
def mkT (name g c m pm pc lo mid hi : String) (net : Option String) : String × ThemeRec :=
  (name, ⟨g, c, m, pm, pc, lo, mid, hi, net.getD c⟩)

/-- The `THEMES` registry, in registration order. -/
def THEMES : List (String × ThemeRec) :=
  [ mkT "Default" "magenta" "cyan" "green" "green" "cyan" "green" "yellow" "red" none
  , mkT "Monokai" "bright_magenta" "bright_cyan" "bright_green" "bright_green" "bright_cyan" "green" "yellow" "red" none
  , mkT "Dracula" "#bd93f9" "#8be9fd" "#50fa7b" "#50fa7b" "#8be9fd" "#50fa7b" "#f1fa8c" "#ff5555" none
  , mkT "Nord" "#b48ead" "#88c0d0" "#a3be8c" "#a3be8c" "#88c0d0" "#a3be8c" "#ebcb8b" "#bf616a" none
  , mkT "Solarized" "#d33682" "#2aa198" "#859900" "#859900" "#2aa198" "#859900" "#b58900" "#dc322f" none
  , mkT "Gruvbox" "#d3869b" "#83a598" "#b8bb26" "#b8bb26" "#83a598" "#b8bb26" "#fabd2f" "#fb4934" none
  , mkT "One Dark" "#c678dd" "#56b6c2" "#98c379" "#98c379" "#56b6c2" "#98c379" "#e5c07b" "#e06c75" none
  , mkT "Tokyo Night" "#bb9af7" "#7dcfff" "#9ece6a" "#9ece6a" "#7dcfff" "#9ece6a" "#e0af68" "#f7768e" none
  , mkT "Catppuccin Mocha" "#cba6f7" "#89dceb" "#a6e3a1" "#a6e3a1" "#89dceb" "#a6e3a1" "#f9e2af" "#f38ba8" none
  , mkT "Catppuccin Latte" "#8839ef" "#04a5e5" "#40a02b" "#40a02b" "#04a5e5" "#40a02b" "#df8e1d" "#d20f39" none
  , mkT "Rosé Pine" "#c4a7e7" "#9ccfd8" "#31748f" "#31748f" "#9ccfd8" "#31748f" "#f6c177" "#eb6f92" none
  , mkT "Everforest" "#d699b6" "#7fbbb3" "#a7c080" "#a7c080" "#7fbbb3" "#a7c080" "#dbbc7f" "#e67e80" none
  , mkT "Kanagawa" "#957fb8" "#7e9cd8" "#98bb6c" "#98bb6c" "#7e9cd8" "#98bb6c" "#e6c384" "#c34043" none
  , mkT "Monochrome" "white" "white" "white" "white" "white" "bright_white" "white" "dim white" none
  , mkT "Green Screen" "green" "green" "green" "green" "green" "bright_green" "green" "dark_green" none
  , mkT "Amber" "#ffbf00" "#ffbf00" "#ffbf00" "#ffbf00" "#ffbf00" "#ffd700" "#ffbf00" "#ff8c00" none
  , mkT "Phosphor" "#33ff00" "#33ff00" "#33ff00" "#33ff00" "#33ff00" "#66ff33" "#33ff00" "#009900" none
  , mkT "Ocean" "#6c5ce7" "#0984e3" "#00b894" "#00b894" "#0984e3" "#00b894" "#fdcb6e" "#d63031" none
  , mkT "Sunset" "#e17055" "#fdcb6e" "#fab1a0" "#fab1a0" "#fdcb6e" "#ffeaa7" "#e17055" "#d63031" none
  , mkT "Forest" "#00b894" "#55efc4" "#00cec9" "#00cec9" "#55efc4" "#55efc4" "#ffeaa7" "#e17055" none
  , mkT "Lava" "#ff6348" "#ff4757" "#ff6b81" "#ff6b81" "#ff4757" "#ffa502" "#ff6348" "#ff3838" none
  , mkT "Arctic" "#dfe6e9" "#74b9ff" "#81ecec" "#81ecec" "#74b9ff" "#81ecec" "#74b9ff" "#a29bfe" none
  , mkT "Sakura" "#fd79a8" "#e84393" "#fab1a0" "#fab1a0" "#e84393" "#fab1a0" "#fd79a8" "#e84393" none
  , mkT "Mint" "#00b894" "#00cec9" "#55efc4" "#55efc4" "#00cec9" "#55efc4" "#81ecec" "#ff7675" none
  , mkT "Lavender" "#a29bfe" "#6c5ce7" "#dfe6e9" "#dfe6e9" "#6c5ce7" "#a29bfe" "#6c5ce7" "#fd79a8" none
  , mkT "Coral" "#ff7675" "#fab1a0" "#ffeaa7" "#ffeaa7" "#fab1a0" "#ffeaa7" "#ff7675" "#d63031" none
  , mkT "Cyberpunk" "#ff00ff" "#00ffff" "#ff00aa" "#ff00aa" "#00ffff" "#00ff00" "#ffff00" "#ff0000" none
  , mkT "Neon" "#ff6ec7" "#00ffff" "#39ff14" "#39ff14" "#00ffff" "#39ff14" "#ffff00" "#ff073a" none
  , mkT "Synthwave" "#f72585" "#4cc9f0" "#7209b7" "#7209b7" "#4cc9f0" "#4cc9f0" "#f72585" "#ff0a54" none
  , mkT "Vaporwave" "#ff71ce" "#01cdfe" "#05ffa1" "#05ffa1" "#01cdfe" "#05ffa1" "#b967ff" "#ff71ce" none
  , mkT "Matrix" "#00ff41" "#008f11" "#003b00" "#003b00" "#008f11" "#00ff41" "#008f11" "#003b00" none
  , mkT "Pastel" "#c39bd3" "#85c1e9" "#82e0aa" "#82e0aa" "#85c1e9" "#82e0aa" "#f9e79f" "#f1948a" none
  , mkT "Soft" "#bb8fce" "#76d7c4" "#7dcea0" "#7dcea0" "#76d7c4" "#7dcea0" "#f0b27a" "#ec7063" none
  , mkT "Cotton Candy" "#ffb3ba" "#bae1ff" "#baffc9" "#baffc9" "#bae1ff" "#baffc9" "#ffffba" "#ffb3ba" none
  , mkT "Ice Cream" "#ff9a9e" "#a1c4fd" "#c2e9fb" "#c2e9fb" "#a1c4fd" "#c2e9fb" "#ffecd2" "#ff9a9e" none
  , mkT "Electric" "#7b2ff7" "#00d4ff" "#00ff87" "#00ff87" "#00d4ff" "#00ff87" "#ffd000" "#ff0055" none
  , mkT "Inferno" "#ff4500" "#ff6a00" "#ff8c00" "#ff8c00" "#ff6a00" "#ffd700" "#ff8c00" "#ff0000" none
  , mkT "Glacier" "#e0f7fa" "#80deea" "#4dd0e1" "#4dd0e1" "#80deea" "#80deea" "#4dd0e1" "#00838f" none
  , mkT "Twilight" "#7c4dff" "#448aff" "#18ffff" "#18ffff" "#448aff" "#18ffff" "#7c4dff" "#ff1744" none
  , mkT "Autumn" "#d35400" "#e67e22" "#f39c12" "#f39c12" "#e67e22" "#f1c40f" "#e67e22" "#c0392b" none
  , mkT "Spring" "#e91e63" "#00bcd4" "#8bc34a" "#8bc34a" "#00bcd4" "#8bc34a" "#ffeb3b" "#f44336" none
  , mkT "Summer" "#ff9800" "#03a9f4" "#4caf50" "#4caf50" "#03a9f4" "#4caf50" "#ffeb3b" "#f44336" none
  , mkT "Winter" "#9c27b0" "#3f51b5" "#607d8b" "#607d8b" "#3f51b5" "#607d8b" "#9c27b0" "#e91e63" none
  , mkT "High Contrast" "bright_magenta" "bright_cyan" "bright_green" "bright_green" "bright_cyan" "bright_green" "bright_yellow" "bright_red" none
  , mkT "Blueprint" "#4fc3f7" "#29b6f6" "#03a9f4" "#03a9f4" "#29b6f6" "#4fc3f7" "#0288d1" "#01579b" none
  , mkT "Redshift" "#ef5350" "#e53935" "#c62828" "#c62828" "#e53935" "#ef9a9a" "#ef5350" "#b71c1c" none
  , mkT "Emerald" "#66bb6a" "#43a047" "#2e7d32" "#2e7d32" "#43a047" "#a5d6a7" "#66bb6a" "#1b5e20" none
  , mkT "Royal" "#7e57c2" "#5c6bc0" "#42a5f5" "#42a5f5" "#5c6bc0" "#42a5f5" "#7e57c2" "#d32f2f" none
  , mkT "Bubblegum" "#ff77a9" "#ff99cc" "#ffb3d9" "#ffb3d9" "#ff99cc" "#ffb3d9" "#ff77a9" "#ff3385" none
  , mkT "Horizon" "#e95678" "#fab795" "#25b0bc" "#25b0bc" "#fab795" "#25b0bc" "#fab795" "#e95678" none
  ]

/-- `THEME_NAMES = list(THEMES.keys())` in registration order. -/
def THEME_NAMES : List String := THEMES.map (fun t => t.1)

/-- `THEMES[name]` lookup (total: falls back to an empty record, unreachable
for the names the controller uses). -/
def lookupTheme (n : String) : ThemeRec :=
  (THEMES.lookup n).getD ⟨"", "", "", "", "", "", "", "", ""⟩

/-- One theme-picker cursor move from `KTop._handle_key`:
up/down move by the column count 3, left/right by 1; up/left clamp at 0,
down/right clamp at `total - 1`; other keys leave the cursor unchanged. -/
def pickerMove (total : ℤ) (c : ℤ) (k : Key) : ℤ :=
  match k with
  | Key.up => max 0 (c - 3)
  | Key.down => min (total - 1) (c + 3)
  | Key.left => max 0 (c - 1)
  | Key.right => min (total - 1) (c + 1)
  | _ => c

/-- The mutable `KTop` state relevant to the control loop.  The config-file
write done by `_save_config({"theme": name})` is modelled by the
`configFile` field holding the last persisted theme name. -/
structure KTopSt where
  refresh : ℚ
  last_refresh : ℚ
  theme_name : String
  theme : ThemeRec
  picking_theme : Bool
  theme_cursor : ℤ
  theme_scroll : ℤ
  cpu_hist : List ℚ
  net_up_hist : List ℚ
  net_down_hist : List ℚ
  net_max_speed : ℚ
  last_net_sent : ℚ
  last_net_recv : ℚ
  last_net_time : ℚ
  configFile : Option String
deriving DecidableEq, Repr

/-- The external readings consumed by one sample pass: `psutil.cpu_percent`,
`psutil.net_io_counters().bytes_sent`/`bytes_recv`, and `time.monotonic()`. -/
structure Env where
  cpu_pct : ℚ
  bytes_sent : ℚ
  bytes_recv : ℚ
  now : ℚ
deriving DecidableEq, Repr

/-- `_sample_cpu`: append one CPU-percent sample to its rolling history. -/
def sampleCpu (s : KTopSt) (e : Env) : KTopSt :=
  { s with cpu_hist := rhAppend HISTORY_LEN s.cpu_hist e.cpu_pct }

/-- The effective elapsed time used by `_sample_net`: `dt = now - last`,
replaced by `1.0` when `dt <= 0`. -/
def effElapsed (now last : ℚ) : ℚ :=
  let dt := now - last
  if dt ≤ 0 then 1 else dt

/-- `_sample_net`: compute up/down rates from counter deltas over the
effective elapsed time, update the last-seen counters and clock, raise the
auto-scale ceiling, and append both rates to their rolling histories. -/
def sampleNet (s : KTopSt) (e : Env) : KTopSt :=
  let dt := effElapsed e.now s.last_net_time
  let up := (e.bytes_sent - s.last_net_sent) / dt
  let down := (e.bytes_recv - s.last_net_recv) / dt
  { s with
    last_net_sent := e.bytes_sent
    last_net_recv := e.bytes_recv
    last_net_time := e.now
    net_max_speed := netCeilStep s.net_max_speed up down
    net_up_hist := rhAppend HISTORY_LEN s.net_up_hist up
    net_down_hist := rhAppend HISTORY_LEN s.net_down_hist down }

/-- `_theme_picker`'s scroll recomputation: keep the cursor row (grid has 3
columns, 18 visible rows) inside the visible window. -/
def pickerScrollAdjust (cursor scroll : ℤ) : ℤ :=
  let row := Int.fdiv cursor 3
  if row < scroll then row
  else if scroll + 18 ≤ row then row - 18 + 1
  else scroll

/-- `_build`: in theme-picker mode render the overlay (which only adjusts the
scroll, appending no samples); in dashboard mode the GPU row samples nothing
when no GPU is available, then `_net_panel` runs `_sample_net` and
`_cpu_panel` runs `_sample_cpu`. -/
def buildFrame (s : KTopSt) (e : Env) : KTopSt :=
  if s.picking_theme then
    { s with theme_scroll := pickerScrollAdjust s.theme_cursor s.theme_scroll }
  else
    sampleCpu (sampleNet s e) e

/-- The picker branch of `KTop._handle_key`: ESC cancels, ENTER commits the
hovered theme (setting the active name and record, leaving picker mode, and
persisting the config), arrows move the cursor, anything else is ignored. -/
def handleKeyPick (s : KTopSt) (k : Key) : KTopSt × Bool :=
  match k with
  | Key.esc => ({ s with picking_theme := false }, false)
  | Key.enter =>
    let nm := THEME_NAMES.getD s.theme_cursor.toNat ""
    ({ s with
        theme_name := nm
        theme := lookupTheme nm
        picking_theme := false
        configFile := some nm }, false)
  | Key.up => ({ s with theme_cursor := pickerMove (THEME_NAMES.length : ℤ) s.theme_cursor Key.up }, false)
  | Key.down => ({ s with theme_cursor := pickerMove (THEME_NAMES.length : ℤ) s.theme_cursor Key.down }, false)
  | Key.left => ({ s with theme_cursor := pickerMove (THEME_NAMES.length : ℤ) s.theme_cursor Key.left }, false)
  | Key.right => ({ s with theme_cursor := pickerMove (THEME_NAMES.length : ℤ) s.theme_cursor Key.right }, false)
  | _ => (s, false)

/-- The dashboard branch of `KTop._handle_key`: `q`/`Q`/ESC quit, `t`/`T`
open the picker at the committed theme's index, anything else is ignored. -/
def handleKeyDash (s : KTopSt) (k : Key) : KTopSt × Bool :=
  match k with
  | Key.ch c =>
    if c = 'q' ∨ c = 'Q' then (s, true)
    else if c = 't' ∨ c = 'T' then
      ({ s with
          picking_theme := true
          theme_cursor := (THEME_NAMES.indexOf s.theme_name : ℤ) }, false)
    else (s, false)
  | Key.esc => (s, true)
  | _ => (s, false)

/-- `KTop._handle_key`: returns the next state and whether to quit; no key
means no change. -/
def handleKey (s : KTopSt) (key : Option Key) : KTopSt × Bool :=
  match key with
  | none => (s, false)
  | some k => if s.picking_theme then handleKeyPick s k else handleKeyDash s k

/-- One iteration of `KTop.run`'s loop after the sleep: read a key, handle
it (possibly quitting), then render — and hence sample — exactly when a key
was pressed or the refresh interval has elapsed; only a timed render resets
the refresh clock. -/
def loopIter (s : KTopSt) (e : Env) (key : Option Key) : KTopSt × Bool :=
  let hk := handleKey s key
  if hk.2 then (hk.1, true)
  else
    let s1 := hk.1
    if key.isSome ∨ s1.refresh ≤ e.now - s1.last_refresh then
      let s2 := buildFrame s1 e
      if key.isSome then (s2, false)
      else ({ s2 with last_refresh := e.now }, false)
    else (s1, false)

/-- One process record as collected by `_top_procs` (`psutil.process_iter`
with pid, name, cpu_percent, memory_percent; percent fields may be `None`). -/
structure ProcInfo where
  pid : ℤ
  pname : Option String
  cpu_percent : Option ℚ
  memory_percent : Option ℚ
deriving DecidableEq, Repr

/-- The two sort keys `_proc_table` passes to `_top_procs`. -/
inductive ProcSortKey where
  | memP
  | cpuP
deriving DecidableEq, Repr

/-- `x.get(key, 0) or 0`: a missing or `None` (or zero) value sorts as 0. -/
def procKeyVal (k : ProcSortKey) (p : ProcInfo) : ℚ :=
  match k with
  | ProcSortKey.memP => p.memory_percent.getD 0
  | ProcSortKey.cpuP => p.cpu_percent.getD 0

/-- `_top_procs(key, n=10)`: drop pid 0, stable-sort by the key in
non-increasing order (Python `sort(reverse=True)`), keep the first 10. -/
def topProcs (ps : List ProcInfo) (k : ProcSortKey) : List ProcInfo :=
  (((ps.filter (fun p => p.pid ≠ 0)).mergeSort
      (fun a b => decide (procKeyVal k b ≤ procKeyVal k a))).take 10)

/-! Theorems. -/

theorem rhAppend_length (N : ℕ) (h : List ℚ) (v : ℚ) :
    (rhAppend N h v).length = min (h.length + 1) N := by
  simp only [rhAppend, List.length_drop, List.length_append, List.length_singleton]
  omega

theorem foldl_rhAppend (N : ℕ) :
    ∀ (vs h : List ℚ), h.length ≤ N →
      vs.foldl (rhAppend N) h = (h ++ vs).drop (h.length + vs.length - N) := by
  intro vs
  induction vs with
  | nil =>
    intro h hh
    simp [Nat.sub_eq_zero_of_le hh]
  | cons v tl ih =>
    intro h hh
    rw [List.foldl_cons, ih (rhAppend N h v) (by rw [rhAppend_length]; omega)]
    have hlen : (rhAppend N h v).length = min (h.length + 1) N := rhAppend_length N h v
    have hk : h.length + 1 - N ≤ (h ++ [v]).length := by
      simp only [List.length_append, List.length_singleton]
      omega
    rw [hlen]
    rw [show rhAppend N h v = (h ++ [v]).drop (h.length + 1 - N) from by
      simp [rhAppend]]
    rw [← List.drop_append_of_le_length hk, List.drop_drop]
    rw [List.append_assoc, List.singleton_append]
    congr 1
    simp only [List.length_cons, List.length_append, List.length_singleton]
    omega

theorem rhFrom_eq_drop (N : ℕ) (vs : List ℚ) :
    rhFrom N vs = vs.drop (vs.length - N) := by
  unfold rhFrom
  rw [foldl_rhAppend N vs [] (by simp)]
  simp

/-- C1: for capacity `N ≥ 1`, appending a sequence longer than `N` into an
empty rolling history leaves exactly the `N` most recent values in insertion
order (oldest evicted first); a sequence of length `≤ N` is kept whole; and
after every append (i.e. for every prefix) the length is at most `N`. -/
theorem rollingHistory_bounded_fifo (N : ℕ) (vs : List ℚ) (hN : 1 ≤ N) :
    (N < vs.length → rhFrom N vs = vs.drop (vs.length - N) ∧ (rhFrom N vs).length = N) ∧
    (vs.length ≤ N → rhFrom N vs = vs) ∧
    (∀ k : ℕ, (rhFrom N (vs.take k)).length ≤ N) := by
  have _ := hN
  refine ⟨fun hlong => ⟨rhFrom_eq_drop N vs, ?_⟩, fun hshort => ?_, fun k => ?_⟩
  · rw [rhFrom_eq_drop, List.length_drop]
    omega
  · rw [rhFrom_eq_drop, Nat.sub_eq_zero_of_le hshort, List.drop_zero]
  · rw [rhFrom_eq_drop, List.length_drop]
    omega

theorem pytrunc_of_nonneg {q : ℚ} (h : 0 ≤ q) : pytrunc q = ⌊q⌋ :=
  if_neg (not_lt.mpr h)

theorem pytrunc_intCast (n : ℤ) : pytrunc (n : ℚ) = n := by
  unfold pytrunc
  split <;> simp

theorem lerp_rgb_zero (c1 c2 : RGB) : lerp_rgb c1 c2 0 = c1 := by
  simp [lerp_rgb, pytrunc_intCast]

theorem lerp_rgb_one (c1 c2 : RGB) : lerp_rgb c1 c2 1 = c2 := by
  have harith : ∀ a b : ℚ, a + (b - a) * 1 = b := by intro a b; ring
  simp only [lerp_rgb, harith]
  simp [pytrunc_intCast]

theorem barT_zero (W : ℕ) : barT W 0 = 0 := by
  simp [barT]

theorem barT_last {W : ℕ} (hW : 1 < W) : barT W (W - 1) = 1 := by
  unfold barT
  have hmax : max ((W : ℤ) - 1) 1 = (W : ℤ) - 1 := by omega
  rw [hmax]
  have hnum : ((W - 1 : ℕ) : ℚ) = (W : ℚ) - 1 := by
    exact_mod_cast Nat.cast_sub (le_of_lt hW)
  have hden : ((((W : ℤ) - 1) : ℤ) : ℚ) = (W : ℚ) - 1 := by push_cast; ring
  rw [hnum, hden, div_self]
  intro hc
  rw [sub_eq_zero] at hc
  have hW1 : W = 1 := by exact_mod_cast hc
  omega

/-- C2 counterexample: at `p = 100` and `W = 1` the single filled cell is
colored `lo` (the code interpolates at `t = 0 / max(0, 1) = 0`), so the last
filled cell's color is not `hi` even though `p = 100`. -/
theorem gradientBar_last_cell_cx :
    barCells 100 1 ⟨0, 0, 0⟩ ⟨255, 255, 255⟩ = [⟨0, 0, 0⟩] ∧
    (⟨0, 0, 0⟩ : RGB) ≠ ⟨255, 255, 255⟩ ∧
    (barCells 100 1 ⟨0, 0, 0⟩ ⟨255, 255, 255⟩).getLast? ≠ some ⟨255, 255, 255⟩ := by
  have h1 : barFilled 100 1 = 1 := by
    unfold barFilled
    rw [show ((100 : ℚ) / 100 * ((1 : ℕ) : ℚ)) = ((1 : ℤ) : ℚ) by norm_num]
    exact pytrunc_intCast 1
  have h2 : barCells 100 1 ⟨0, 0, 0⟩ ⟨255, 255, 255⟩ = [⟨0, 0, 0⟩] := by
    unfold barCells
    rw [h1]
    rw [show List.range (Int.toNat 1) = [0] from rfl]
    simp [barT_zero, lerp_rgb_zero]
  refine ⟨h2, by simp, ?_⟩
  rw [h2]
  simp

/-- C2 (amended): for `0 ≤ p ≤ 100` and `W ≥ 1`, `_bar` computes
`filled = ⌊p/100·W⌋` with `0 ≤ filled ≤ W` and `filled + empty = W`; filled
cell `i` is colored by linear interpolation truncated to integers at
`t = i / max(W-1, 1)`; cell 0's color equals `lo` when `W > 1` (and the bar
is non-empty); and the last filled cell's color equals `hi` when `p = 100`
**and `W > 1`** (at `W = 1` the single cell is colored `lo`). -/
theorem gradientBar_spec_amended (p : ℚ) (W : ℕ) (lo hi : RGB)
    (hp0 : 0 ≤ p) (hp1 : p ≤ 100) (hW : 1 ≤ W) :
    barFilled p W = ⌊p / 100 * (W : ℚ)⌋ ∧
    0 ≤ barFilled p W ∧ barFilled p W ≤ (W : ℤ) ∧
    barFilled p W + barEmpty p W = (W : ℤ) ∧
    (barCells p W lo hi).length = (barFilled p W).toNat ∧
    (∀ i : ℕ, (barCells p W lo hi)[i]? =
      if i < (barFilled p W).toNat then some (lerp_rgb lo hi (barT W i)) else none) ∧
    (1 < W → barCells p W lo hi ≠ [] → (barCells p W lo hi).head? = some lo) ∧
    (p = 100 → 1 < W → (barCells p W lo hi).getLast? = some hi) := by
  have harg0 : 0 ≤ p / 100 * (W : ℚ) := by positivity
  have hfl : barFilled p W = ⌊p / 100 * (W : ℚ)⌋ := pytrunc_of_nonneg harg0
  have hge : 0 ≤ barFilled p W := by
    rw [hfl]
    exact Int.floor_nonneg.mpr harg0
  have hle : barFilled p W ≤ (W : ℤ) := by
    rw [hfl]
    have harg1 : p / 100 * (W : ℚ) ≤ ((W : ℤ) : ℚ) := by
      push_cast
      have hp100 : p / 100 ≤ 1 := by
        rw [div_le_one (by norm_num : (0 : ℚ) < 100)]
        exact hp1
      calc p / 100 * (W : ℚ) ≤ 1 * (W : ℚ) := by
            apply mul_le_mul_of_nonneg_right hp100
            positivity
        _ = (W : ℚ) := one_mul _
    calc ⌊p / 100 * (W : ℚ)⌋ ≤ ⌊((W : ℤ) : ℚ)⌋ := Int.floor_le_floor harg1
      _ = (W : ℤ) := Int.floor_intCast _
  refine ⟨hfl, hge, hle, by unfold barEmpty; ring, by simp [barCells], ?_, ?_, ?_⟩
  · intro i
    unfold barCells
    rw [List.getElem?_map]
    by_cases hcase : i < (barFilled p W).toNat
    · rw [List.getElem?_range hcase]
      simp [hcase]
    · rw [List.getElem?_eq_none (by simpa using not_lt.mp hcase)]
      simp [hcase]
  · intro _ hne
    have hlen : 0 < (barFilled p W).toNat := by
      by_contra hc
      apply hne
      unfold barCells
      rw [Nat.eq_zero_of_not_pos hc]
      simp
    obtain ⟨m, hm⟩ : ∃ m, (barFilled p W).toNat = m + 1 :=
      ⟨(barFilled p W).toNat - 1, by omega⟩
    unfold barCells
    rw [hm, List.range_succ_eq_map]
    simp [barT_zero, lerp_rgb_zero]
  · intro hp100 hW1
    have hfW : barFilled p W = (W : ℤ) := by
      rw [hfl, hp100]
      rw [show ((100 : ℚ) / 100 * (W : ℚ)) = (((W : ℤ) : ℚ)) by push_cast; ring]
      exact Int.floor_intCast _
    obtain ⟨m, hm⟩ : ∃ m, W = m + 1 := ⟨W - 1, by omega⟩
    unfold barCells
    rw [hfW]
    rw [show ((W : ℤ)).toNat = W from Int.toNat_natCast W]
    rw [hm, List.range_succ, List.map_append]
    simp only [List.map_singleton, List.getLast?_concat]
    have hb : barT (m + 1) m = 1 := by
      have h := barT_last (W := m + 1) (by omega : 1 < m + 1)
      simpa using h
    rw [hb, lerp_rgb_one]

/-- Witness for C2 (amended) at `p = 50`, `W = 4`, black→white gradient. -/
theorem gradientBar_spec_amended_witness :
    ((0 : ℚ) ≤ 50 ∧ (50 : ℚ) ≤ 100 ∧ 1 ≤ 4) ∧
    (barFilled 50 4 = ⌊(50 : ℚ) / 100 * ((4 : ℕ) : ℚ)⌋ ∧
     0 ≤ barFilled 50 4 ∧ barFilled 50 4 ≤ ((4 : ℕ) : ℤ) ∧
     barFilled 50 4 + barEmpty 50 4 = ((4 : ℕ) : ℤ) ∧
     (barCells 50 4 ⟨0, 0, 0⟩ ⟨255, 255, 255⟩).length = (barFilled 50 4).toNat ∧
     (∀ i : ℕ, (barCells 50 4 ⟨0, 0, 0⟩ ⟨255, 255, 255⟩)[i]? =
       if i < (barFilled 50 4).toNat then
         some (lerp_rgb ⟨0, 0, 0⟩ ⟨255, 255, 255⟩ (barT 4 i)) else none) ∧
     (1 < 4 → barCells 50 4 ⟨0, 0, 0⟩ ⟨255, 255, 255⟩ ≠ [] →
       (barCells 50 4 ⟨0, 0, 0⟩ ⟨255, 255, 255⟩).head? = some ⟨0, 0, 0⟩) ∧
     ((50 : ℚ) = 100 → 1 < 4 →
       (barCells 50 4 ⟨0, 0, 0⟩ ⟨255, 255, 255⟩).getLast? = some ⟨255, 255, 255⟩)) :=
  ⟨⟨by norm_num, by norm_num, by norm_num⟩,
   gradientBar_spec_amended 50 4 ⟨0, 0, 0⟩ ⟨255, 255, 255⟩
     (by norm_num) (by norm_num) (by norm_num)⟩

/-- C3: sparkline output length is `min(len, w)` for `w > 0` and `len` when
no width is given; empty input yields empty output; with a short width only
the trailing `w` values are kept; every glyph comes from the 9-level ramp
(blank at level 0) at index `⌊clamp(v,0,100)/100·8⌋`, always a valid index. -/
theorem sparkline_spec (vs : List ℚ) (w : ℕ) (hw : 0 < w) :
    (sparkline vs (some w)).length = min vs.length w ∧
    (sparkline vs none).length = vs.length ∧
    sparkline [] (some w) = [] ∧
    (w < vs.length → sparkline vs (some w) = (vs.drop (vs.length - w)).map sparkGlyph) ∧
    (vs ≠ [] → vs.length ≤ w → sparkline vs (some w) = vs.map sparkGlyph) ∧
    SPARK.length = 9 ∧ SPARK[0]? = some ' ' ∧
    (∀ v : ℚ, sparkIdx v = ⌊sparkClamp v / 100 * 8⌋ ∧
      0 ≤ sparkIdx v ∧ (sparkIdx v).toNat < SPARK.length ∧
      sparkGlyph v = SPARK.getD (sparkIdx v).toNat ' ') := by
  have hS : SPARK.length = 9 := rfl
  have hcast : (((SPARK.length : ℤ) - 1 : ℤ) : ℚ) = 8 := by
    rw [hS]
    norm_num
  have hidx : ∀ v : ℚ, sparkIdx v = ⌊sparkClamp v / 100 * 8⌋ := by
    intro v
    have h0 : (0 : ℚ) ≤ sparkClamp v := le_max_left 0 _
    unfold sparkIdx
    rw [hcast]
    exact pytrunc_of_nonneg (by positivity)
  have hbnd : ∀ v : ℚ, 0 ≤ sparkIdx v ∧ sparkIdx v ≤ 8 := by
    intro v
    have h0 : (0 : ℚ) ≤ sparkClamp v := le_max_left 0 _
    have h100 : sparkClamp v ≤ 100 := max_le (by norm_num) (min_le_left _ _)
    rw [hidx v]
    constructor
    · exact Int.floor_nonneg.mpr (by positivity)
    · have harg : sparkClamp v / 100 * 8 ≤ ((8 : ℤ) : ℚ) := by
        push_cast
        have hd : sparkClamp v / 100 ≤ 1 := by
          rw [div_le_one (by norm_num : (0 : ℚ) < 100)]
          exact h100
        calc sparkClamp v / 100 * 8 ≤ 1 * 8 := by
              apply mul_le_mul_of_nonneg_right hd
              norm_num
          _ = 8 := one_mul _
      calc ⌊sparkClamp v / 100 * 8⌋ ≤ ⌊((8 : ℤ) : ℚ)⌋ := Int.floor_le_floor harg
        _ = 8 := Int.floor_intCast _
  by_cases hvs : vs = []
  · subst hvs
    refine ⟨by simp [sparkline], by simp [sparkline], by simp [sparkline], ?_, ?_, hS, rfl, ?_⟩
    · intro h
      simp at h
    · intro h
      exact absurd rfl h
    · intro v
      obtain ⟨hb0, hb8⟩ := hbnd v
      exact ⟨hidx v, hb0, by omega, rfl⟩
  · have hmain : sparkline vs (some w) =
        if w ≠ 0 ∧ w < vs.length then (vs.drop (vs.length - w)).map sparkGlyph
        else vs.map sparkGlyph := by
      unfold sparkline
      rw [if_neg hvs]
      show List.map sparkGlyph
          (if w ≠ 0 ∧ w < vs.length then List.drop (vs.length - w) vs else vs) = _
      by_cases hc : w ≠ 0 ∧ w < vs.length
      · rw [if_pos hc, if_pos hc]
      · rw [if_neg hc, if_neg hc]
    refine ⟨?_, by simp [sparkline, hvs], by simp [sparkline], ?_, ?_, hS, rfl, ?_⟩
    · rw [hmain]
      by_cases hlt : w < vs.length
      · rw [if_pos ⟨by omega, hlt⟩]
        simp only [List.length_map, List.length_drop]
        omega
      · rw [if_neg (by tauto)]
        simp only [List.length_map]
        omega
    · intro hlt
      rw [hmain, if_pos ⟨by omega, hlt⟩]
    · intro _ hle
      rw [hmain, if_neg (by omega)]
    · intro v
      obtain ⟨hb0, hb8⟩ := hbnd v
      exact ⟨hidx v, hb0, by omega, rfl⟩

/-- Witness for C3 at `vs = [0, 150, -5]`, `w = 2`. -/
theorem sparkline_spec_witness :
    0 < 2 ∧
    ((sparkline [0, 150, -5] (some 2)).length = min ([0, 150, -5] : List ℚ).length 2 ∧
     (sparkline [0, 150, -5] none).length = ([0, 150, -5] : List ℚ).length ∧
     sparkline [] (some 2) = [] ∧
     (2 < ([0, 150, -5] : List ℚ).length → sparkline [0, 150, -5] (some 2) =
       (([0, 150, -5] : List ℚ).drop (([0, 150, -5] : List ℚ).length - 2)).map sparkGlyph) ∧
     (([0, 150, -5] : List ℚ) ≠ [] → ([0, 150, -5] : List ℚ).length ≤ 2 →
       sparkline [0, 150, -5] (some 2) = ([0, 150, -5] : List ℚ).map sparkGlyph) ∧
     SPARK.length = 9 ∧ SPARK[0]? = some ' ' ∧
     (∀ v : ℚ, sparkIdx v = ⌊sparkClamp v / 100 * 8⌋ ∧
       0 ≤ sparkIdx v ∧ (sparkIdx v).toNat < SPARK.length ∧
       sparkGlyph v = SPARK.getD (sparkIdx v).toNat ' ')) :=
  ⟨by decide, sparkline_spec [0, 150, -5] 2 (by decide)⟩

theorem netCeil_le_foldl :
    ∀ (l : List (ℚ × ℚ)) (c : ℚ), c ≤ l.foldl (fun a o => netCeilStep a o.1 o.2) c := by
  intro l
  induction l with
  | nil => intro c; simp
  | cons o t ih =>
    intro c
    rw [List.foldl_cons]
    refine le_trans ?_ (ih (netCeilStep c o.1 o.2))
    unfold netCeilStep
    exact le_trans (le_max_left _ _) (le_trans (le_max_left _ _) (le_max_left _ _))

/-- C4: the auto-scale ceiling is seeded at 1.0, each step takes
`max(cur, up, down, 1.0)`, and across any observation sequence every prefix's
ceiling is at least 1 and non-decreasing from one sample to the next. -/
theorem netScale_monotone_ge_one (obs : List (ℚ × ℚ)) (k : ℕ) :
    netCeilAfter ([] : List (ℚ × ℚ)) = 1 ∧
    (∀ c u d : ℚ, netCeilStep c u d = max (max (max c u) d) 1) ∧
    1 ≤ netCeilAfter (obs.take k) ∧
    netCeilAfter (obs.take k) ≤ netCeilAfter (obs.take (k + 1)) := by
  refine ⟨rfl, fun _ _ _ => rfl, ?_, ?_⟩
  · exact netCeil_le_foldl (obs.take k) 1
  · unfold netCeilAfter
    rw [List.take_succ, List.foldl_append]
    exact netCeil_le_foldl _ _

theorem pickerMove_bounds (total c : ℤ) (k : Key)
    (ht : 1 ≤ total) (hc0 : 0 ≤ c) (hc1 : c < total) :
    0 ≤ pickerMove total c k ∧ pickerMove total c k < total := by
  cases k <;> simp only [pickerMove] <;> omega

/-- C5: in picker mode up/down move the cursor by the column count 3 and
left/right by 1, each result equal to the full clamp into `[0, total-1]`
when starting from a valid cursor; hence under any sequence of arrow inputs
a valid cursor stays in `[0, total-1]`. -/
theorem themePicker_cursor_bounded (total c : ℤ) (ks : List Key)
    (ht : 1 ≤ total) (hc0 : 0 ≤ c) (hc1 : c < total) :
    pickerMove total c Key.up = max 0 (min (total - 1) (c - 3)) ∧
    pickerMove total c Key.down = max 0 (min (total - 1) (c + 3)) ∧
    pickerMove total c Key.left = max 0 (min (total - 1) (c - 1)) ∧
    pickerMove total c Key.right = max 0 (min (total - 1) (c + 1)) ∧
    0 ≤ ks.foldl (pickerMove total) c ∧ ks.foldl (pickerMove total) c < total := by
  refine ⟨by simp only [pickerMove]; omega, by simp only [pickerMove]; omega,
    by simp only [pickerMove]; omega, by simp only [pickerMove]; omega, ?_⟩
  induction ks generalizing c with
  | nil => exact ⟨hc0, hc1⟩
  | cons kk tl ih =>
    rw [List.foldl_cons]
    obtain ⟨h1, h2⟩ := pickerMove_bounds total c kk ht hc0 hc1
    exact ih _ h1 h2

/-- Witness for C5 at `total = 50`, cursor 0, a boundary-heavy move list. -/
theorem themePicker_cursor_bounded_witness :
    ((1 : ℤ) ≤ 50 ∧ (0 : ℤ) ≤ 0 ∧ (0 : ℤ) < 50) ∧
    (pickerMove 50 0 Key.up = max 0 (min (50 - 1) (0 - 3)) ∧
     pickerMove 50 0 Key.down = max 0 (min (50 - 1) (0 + 3)) ∧
     pickerMove 50 0 Key.left = max 0 (min (50 - 1) (0 - 1)) ∧
     pickerMove 50 0 Key.right = max 0 (min (50 - 1) (0 + 1)) ∧
     0 ≤ ([Key.up, Key.up, Key.down, Key.right, Key.left, Key.left] : List Key).foldl
          (pickerMove 50) 0 ∧
     ([Key.up, Key.up, Key.down, Key.right, Key.left, Key.left] : List Key).foldl
          (pickerMove 50) 0 < 50) :=
  ⟨⟨by decide, by decide, by decide⟩,
   themePicker_cursor_bounded 50 0 [Key.up, Key.up, Key.down, Key.right, Key.left, Key.left]
     (by decide) (by decide) (by decide)⟩

/-- Witness for C1 at capacity 3 and samples `[0, 100, 50, 10]`. -/
theorem rollingHistory_bounded_fifo_witness :
    1 ≤ 3 ∧
    ((3 < ([0, 100, 50, 10] : List ℚ).length →
        rhFrom 3 [0, 100, 50, 10] =
          ([0, 100, 50, 10] : List ℚ).drop (([0, 100, 50, 10] : List ℚ).length - 3) ∧
        (rhFrom 3 ([0, 100, 50, 10] : List ℚ)).length = 3) ∧
     (([0, 100, 50, 10] : List ℚ).length ≤ 3 →
        rhFrom 3 [0, 100, 50, 10] = ([0, 100, 50, 10] : List ℚ)) ∧
     (∀ k : ℕ, (rhFrom 3 (([0, 100, 50, 10] : List ℚ).take k)).length ≤ 3)) :=
  ⟨by decide, rollingHistory_bounded_fifo 3 [0, 100, 50, 10] (by decide)⟩

/-- C9: the network-rate divisor `effElapsed` equals the measured elapsed
time when that is positive and is replaced by 1.0 otherwise, so it is
strictly positive for every pair of timestamps — the rate computation never
divides by zero or by a negative number. -/
theorem effElapsed_pos (now last : ℚ) :
    0 < effElapsed now last ∧
    (now - last ≤ 0 → effElapsed now last = 1) ∧
    (0 < now - last → effElapsed now last = now - last) := by
  have hdef : effElapsed now last = if now - last ≤ 0 then 1 else now - last := rfl
  rw [hdef]
  by_cases h : now - last ≤ 0
  · rw [if_pos h]
    exact ⟨one_pos, fun _ => rfl, fun hc => absurd h (not_le.mpr hc)⟩
  · rw [if_neg h]
    push_neg at h
    exact ⟨h, fun hc => absurd hc (not_le.mpr h), fun _ => rfl⟩

/-- Witness for C9 at `now = 0`, `last = 5` (non-positive elapsed time). -/
theorem effElapsed_pos_witness :
    0 < effElapsed 0 5 ∧ effElapsed 0 5 = 1 :=
  ⟨(effElapsed_pos 0 5).1, (effElapsed_pos 0 5).2.1 (by norm_num)⟩

/-- C8: `_read_key` maps a single printable byte to its character, CR/LF to
ENTER, a lone escape byte to ESC, `ESC [ A/B/C/D` to up/down/right/left, and
every other escape-prefixed read (and the empty read) to no key; being
`Option`-valued, each read reports at most one logical key. -/
theorem readKey_decode_spec :
    (∀ b : ℕ, 32 ≤ b → b ≤ 126 → readKey [b] = some (Key.ch (Char.ofNat b))) ∧
    readKey [13] = some Key.enter ∧
    readKey [10] = some Key.enter ∧
    readKey [27] = some Key.esc ∧
    readKey [27, 91, 65] = some Key.up ∧
    readKey [27, 91, 66] = some Key.down ∧
    readKey [27, 91, 67] = some Key.right ∧
    readKey [27, 91, 68] = some Key.left ∧
    (∀ x : ℕ, readKey [27, x] = none) ∧
    (∀ (c : ℕ) (rest : List ℕ), c ≠ 91 → readKey (27 :: c :: rest) = none) ∧
    (∀ (c2 : ℕ) (rest : List ℕ), c2 ≠ 65 → c2 ≠ 66 → c2 ≠ 67 → c2 ≠ 68 →
      readKey (27 :: 91 :: c2 :: rest) = none) ∧
    readKey [] = none := by
  refine ⟨?_, by decide, by decide, by decide, by decide, by decide, by decide, by decide,
    ?_, ?_, ?_, rfl⟩
  · intro b h1 h2
    simp only [readKey]
    rw [if_neg (by omega : ¬ b = 27), if_neg (by omega : ¬ (b = 13 ∨ b = 10))]
  · intro x
    simp [readKey]
  · intro c rest hc
    cases rest with
    | nil => simp [readKey]
    | cons a t => simp [readKey, hc]
  · intro c2 rest h65 h66 h67 h68
    simp [readKey, h65, h66, h67, h68]

/-- Witness for C8 at the printable byte 97 (`a`). -/
theorem readKey_decode_spec_witness :
    32 ≤ 97 ∧ 97 ≤ 126 ∧ readKey [97] = some (Key.ch (Char.ofNat 97)) :=
  ⟨by decide, by decide, readKey_decode_spec.1 97 (by decide) (by decide)⟩

/-- C7: in picker mode, ENTER commits the hovered theme (the one at the
cursor) as the active theme name and record, persists it to the config, and
returns to the dashboard; ESC returns to the dashboard leaving the committed
theme name, the active theme record and the persisted config unchanged. -/
theorem themePicker_commit_cancel (s : KTopSt) (hp : s.picking_theme = true) :
    (handleKey s (some Key.enter)).1.picking_theme = false ∧
    (handleKey s (some Key.enter)).1.theme_name =
      THEME_NAMES.getD s.theme_cursor.toNat "" ∧
    (handleKey s (some Key.enter)).1.theme =
      lookupTheme (THEME_NAMES.getD s.theme_cursor.toNat "") ∧
    (handleKey s (some Key.enter)).1.configFile =
      some (THEME_NAMES.getD s.theme_cursor.toNat "") ∧
    (handleKey s (some Key.enter)).2 = false ∧
    (handleKey s (some Key.esc)).1.picking_theme = false ∧
    (handleKey s (some Key.esc)).1.theme_name = s.theme_name ∧
    (handleKey s (some Key.esc)).1.theme = s.theme ∧
    (handleKey s (some Key.esc)).1.configFile = s.configFile ∧
    (handleKey s (some Key.esc)).2 = false := by
  simp [handleKey, handleKeyPick, hp]

/-- Witness for C7 at a concrete picker state hovering index 5. -/
theorem themePicker_commit_cancel_witness :
    let s0 : KTopSt :=
      ⟨1, 0, "Default", lookupTheme "Default", true, 5, 0, [], [], [], 1, 0, 0, 0, none⟩
    s0.picking_theme = true ∧
    ((handleKey s0 (some Key.enter)).1.picking_theme = false ∧
     (handleKey s0 (some Key.enter)).1.theme_name =
       THEME_NAMES.getD s0.theme_cursor.toNat "" ∧
     (handleKey s0 (some Key.enter)).1.theme =
       lookupTheme (THEME_NAMES.getD s0.theme_cursor.toNat "") ∧
     (handleKey s0 (some Key.enter)).1.configFile =
       some (THEME_NAMES.getD s0.theme_cursor.toNat "") ∧
     (handleKey s0 (some Key.enter)).2 = false ∧
     (handleKey s0 (some Key.esc)).1.picking_theme = false ∧
     (handleKey s0 (some Key.esc)).1.theme_name = s0.theme_name ∧
     (handleKey s0 (some Key.esc)).1.theme = s0.theme ∧
     (handleKey s0 (some Key.esc)).1.configFile = s0.configFile ∧
     (handleKey s0 (some Key.esc)).2 = false) :=
  ⟨rfl, themePicker_commit_cancel _ rfl⟩

theorem handleKeyPick_frame (s : KTopSt) (k : Key) :
    (handleKeyPick s k).1.cpu_hist = s.cpu_hist ∧
    (handleKeyPick s k).1.net_up_hist = s.net_up_hist ∧
    (handleKeyPick s k).1.net_down_hist = s.net_down_hist ∧
    (handleKeyPick s k).1.refresh = s.refresh ∧
    (handleKeyPick s k).1.last_refresh = s.last_refresh ∧
    (handleKeyPick s k).1.last_net_sent = s.last_net_sent ∧
    (handleKeyPick s k).1.last_net_recv = s.last_net_recv ∧
    (handleKeyPick s k).1.last_net_time = s.last_net_time := by
  cases k <;> simp [handleKeyPick]

theorem handleKeyDash_frame (s : KTopSt) (k : Key) :
    (handleKeyDash s k).1.cpu_hist = s.cpu_hist ∧
    (handleKeyDash s k).1.net_up_hist = s.net_up_hist ∧
    (handleKeyDash s k).1.net_down_hist = s.net_down_hist ∧
    (handleKeyDash s k).1.refresh = s.refresh ∧
    (handleKeyDash s k).1.last_refresh = s.last_refresh ∧
    (handleKeyDash s k).1.last_net_sent = s.last_net_sent ∧
    (handleKeyDash s k).1.last_net_recv = s.last_net_recv ∧
    (handleKeyDash s k).1.last_net_time = s.last_net_time := by
  cases k <;> simp only [handleKeyDash] <;>
    first
      | (split_ifs <;> simp)
      | simp

theorem handleKey_frame (s : KTopSt) (key : Option Key) :
    (handleKey s key).1.cpu_hist = s.cpu_hist ∧
    (handleKey s key).1.net_up_hist = s.net_up_hist ∧
    (handleKey s key).1.net_down_hist = s.net_down_hist ∧
    (handleKey s key).1.refresh = s.refresh ∧
    (handleKey s key).1.last_refresh = s.last_refresh ∧
    (handleKey s key).1.last_net_sent = s.last_net_sent ∧
    (handleKey s key).1.last_net_recv = s.last_net_recv ∧
    (handleKey s key).1.last_net_time = s.last_net_time := by
  cases key with
  | none => simp [handleKey]
  | some k =>
    by_cases hp : s.picking_theme <;> simp only [handleKey, hp] <;>
      first
        | exact handleKeyPick_frame s k
        | exact handleKeyDash_frame s k

/-- C6 counterexample: in dashboard mode with the refresh interval NOT yet
elapsed, pressing an unrecognized key (`x`) triggers a render which appends a
CPU sample — so a keypress-triggered render in addition to the timed schedule
does cause an extra sample, contrary to the claim. -/
theorem loopIter_keypress_samples_cx :
    let s0 : KTopSt :=
      ⟨1, 0, "Default", lookupTheme "Default", false, 0, 0, [], [], [], 1, 0, 0, 0, none⟩
    let e : Env := ⟨5, 0, 0, 0⟩
    ¬ (s0.refresh ≤ e.now - s0.last_refresh) ∧
    (loopIter s0 e (some (Key.ch 'x'))).1.cpu_hist.length = s0.cpu_hist.length + 1 ∧
    (loopIter s0 e (some (Key.ch 'x'))).1.net_up_hist.length = s0.net_up_hist.length + 1 := by
  refine ⟨by norm_num, ?_, ?_⟩ <;>
    simp [loopIter, handleKey, handleKeyDash, buildFrame, sampleNet, sampleCpu,
      rhAppend, HISTORY_LEN]

/-- C6 (amended): handling a key never appends samples by itself; a loop
iteration appends exactly one sample to each owned history (CPU, net up,
net down) precisely when it performs a dashboard render — whether that
render is keypress-triggered or interval-triggered — and appends nothing
when it quits, renders the theme picker, or does not render at all. -/
theorem sampling_per_render_amended (s : KTopSt) (e : Env) (key : Option Key) :
    ((handleKey s key).1.cpu_hist = s.cpu_hist ∧
     (handleKey s key).1.net_up_hist = s.net_up_hist ∧
     (handleKey s key).1.net_down_hist = s.net_down_hist) ∧
    ((handleKey s key).2 = true →
      (loopIter s e key).1.cpu_hist = s.cpu_hist ∧
      (loopIter s e key).1.net_up_hist = s.net_up_hist ∧
      (loopIter s e key).1.net_down_hist = s.net_down_hist) ∧
    ((handleKey s key).2 = false ∧
       (key.isSome ∨ (handleKey s key).1.refresh ≤ e.now - (handleKey s key).1.last_refresh) ∧
       (handleKey s key).1.picking_theme = false →
      (loopIter s e key).1.cpu_hist = rhAppend HISTORY_LEN s.cpu_hist e.cpu_pct ∧
      (loopIter s e key).1.net_up_hist =
        rhAppend HISTORY_LEN s.net_up_hist
          ((e.bytes_sent - s.last_net_sent) / effElapsed e.now s.last_net_time) ∧
      (loopIter s e key).1.net_down_hist =
        rhAppend HISTORY_LEN s.net_down_hist
          ((e.bytes_recv - s.last_net_recv) / effElapsed e.now s.last_net_time)) ∧
    ((handleKey s key).2 = false ∧ (handleKey s key).1.picking_theme = true →
      (loopIter s e key).1.cpu_hist = s.cpu_hist ∧
      (loopIter s e key).1.net_up_hist = s.net_up_hist ∧
      (loopIter s e key).1.net_down_hist = s.net_down_hist) ∧
    ((handleKey s key).2 = false ∧
       ¬ (key.isSome ∨ (handleKey s key).1.refresh ≤ e.now - (handleKey s key).1.last_refresh) →
      (loopIter s e key).1.cpu_hist = s.cpu_hist ∧
      (loopIter s e key).1.net_up_hist = s.net_up_hist ∧
      (loopIter s e key).1.net_down_hist = s.net_down_hist) := by
  obtain ⟨hc, hu, hd, hr, hlr, hns, hnr, hnt⟩ := handleKey_frame s key
  refine ⟨⟨hc, hu, hd⟩, ?_, ?_, ?_, ?_⟩
  · intro hq
    simp [loopIter, hq, hc, hu, hd]
  · rintro ⟨hq, hrend, hpick⟩
    simp only [loopIter, hq, Bool.false_eq_true, if_false, if_pos hrend]
    have hbuild :
        (buildFrame (handleKey s key).1 e).cpu_hist =
          rhAppend HISTORY_LEN s.cpu_hist e.cpu_pct ∧
        (buildFrame (handleKey s key).1 e).net_up_hist =
          rhAppend HISTORY_LEN s.net_up_hist
            ((e.bytes_sent - s.last_net_sent) / effElapsed e.now s.last_net_time) ∧
        (buildFrame (handleKey s key).1 e).net_down_hist =
          rhAppend HISTORY_LEN s.net_down_hist
            ((e.bytes_recv - s.last_net_recv) / effElapsed e.now s.last_net_time) := by
      simp [buildFrame, hpick, sampleCpu, sampleNet, hc, hu, hd, hns, hnr, hnt]
    split <;> simp [hbuild]
  · rintro ⟨hq, hpick⟩
    simp only [loopIter, hq, Bool.false_eq_true, if_false]
    split
    · have hbuild :
          (buildFrame (handleKey s key).1 e).cpu_hist = s.cpu_hist ∧
          (buildFrame (handleKey s key).1 e).net_up_hist = s.net_up_hist ∧
          (buildFrame (handleKey s key).1 e).net_down_hist = s.net_down_hist := by
        simp [buildFrame, hpick, hc, hu, hd]
      split <;> simp [hbuild]
    · exact ⟨hc, hu, hd⟩
  · rintro ⟨hq, hrend⟩
    simp only [loopIter, hq, Bool.false_eq_true, if_false, if_neg hrend]
    exact ⟨hc, hu, hd⟩

/-- Witness for C6 (amended): a timed render in dashboard mode samples all
three histories exactly once. -/
theorem sampling_per_render_amended_witness :
    let s0 : KTopSt :=
      ⟨1, 0, "Default", lookupTheme "Default", false, 0, 0, [], [], [], 1, 0, 0, 0, none⟩
    let e : Env := ⟨5, 7, 9, 2⟩
    (loopIter s0 e none).1.cpu_hist = rhAppend HISTORY_LEN s0.cpu_hist e.cpu_pct ∧
    (loopIter s0 e none).1.net_up_hist =
      rhAppend HISTORY_LEN s0.net_up_hist
        ((e.bytes_sent - s0.last_net_sent) / effElapsed e.now s0.last_net_time) ∧
    (loopIter s0 e none).1.net_down_hist =
      rhAppend HISTORY_LEN s0.net_down_hist
        ((e.bytes_recv - s0.last_net_recv) / effElapsed e.now s0.last_net_time) :=
  (sampling_per_render_amended _ _ none).2.2.1
    ⟨rfl, Or.inr (by norm_num [handleKey]), rfl⟩

/-- C10: every top-process listing has at most 10 records, excludes pid 0,
and is sorted in non-increasing order of the requested key, with a missing
or `None` key value sorting as 0 (built into `procKeyVal`). -/
theorem topProcs_spec (ps : List ProcInfo) (k : ProcSortKey) :
    (topProcs ps k).length ≤ 10 ∧
    (∀ p ∈ topProcs ps k, p.pid ≠ 0) ∧
    (topProcs ps k).Pairwise (fun a b => procKeyVal k b ≤ procKeyVal k a) := by
  unfold topProcs
  refine ⟨?_, ?_, ?_⟩
  · rw [List.length_take]
    exact min_le_left _ _
  · intro p hp
    have hp2 : p ∈ (ps.filter (fun p => p.pid ≠ 0)).mergeSort
        (fun a b => decide (procKeyVal k b ≤ procKeyVal k a)) :=
      List.mem_of_mem_take hp
    have hp3 : p ∈ ps.filter (fun p => decide (p.pid ≠ 0)) :=
      (List.mergeSort_perm _ _).mem_iff.mp hp2
    simpa using (List.mem_filter.mp hp3).2
  · apply List.Pairwise.sublist (List.take_sublist _ _)
    have htrans : ∀ a b c : ProcInfo,
        (fun a b : ProcInfo => decide (procKeyVal k b ≤ procKeyVal k a)) a b = true →
        (fun a b : ProcInfo => decide (procKeyVal k b ≤ procKeyVal k a)) b c = true →
        (fun a b : ProcInfo => decide (procKeyVal k b ≤ procKeyVal k a)) a c = true := by
      intro a b c hab hbc
      simp only [decide_eq_true_eq] at *
      exact le_trans hbc hab
    have htotal : ∀ a b : ProcInfo,
        ((fun a b : ProcInfo => decide (procKeyVal k b ≤ procKeyVal k a)) a b ||
         (fun a b : ProcInfo => decide (procKeyVal k b ≤ procKeyVal k a)) b a) = true := by
      intro a b
      simp only [Bool.or_eq_true, decide_eq_true_eq]
      exact (le_total (procKeyVal k b) (procKeyVal k a))
    have hs := List.sorted_mergeSort htrans htotal (ps.filter (fun p => p.pid ≠ 0))
    exact hs.imp (fun hab => by simpa using hab)

/-- Witness for C10 on a concrete enumeration containing pid 0. -/
theorem topProcs_spec_witness :
    (topProcs [⟨0, none, some 50, some 10⟩, ⟨3, none, some 5, none⟩,
        ⟨2, none, none, some 7⟩] ProcSortKey.memP).length ≤ 10 ∧
    (∀ p ∈ topProcs [⟨0, none, some 50, some 10⟩, ⟨3, none, some 5, none⟩,
        ⟨2, none, none, some 7⟩] ProcSortKey.memP, p.pid ≠ 0) ∧
    (topProcs [⟨0, none, some 50, some 10⟩, ⟨3, none, some 5, none⟩,
        ⟨2, none, none, some 7⟩] ProcSortKey.memP).Pairwise
      (fun a b => procKeyVal ProcSortKey.memP b ≤ procKeyVal ProcSortKey.memP a) :=
  topProcs_spec [⟨0, none, some 50, some 10⟩, ⟨3, none, some 5, none⟩,
    ⟨2, none, none, some 7⟩] ProcSortKey.memP

end Ktop
